import Mathlib

/-!
Verification of the ComposiFX animation core and fill-effect pipeline.

The development shallowly embeds the keyframe-interpolation engine
(`packages/core/src/parameter.ts`, `packages/core/src/layer.ts`), the easing
library (`packages/core/src/easing.ts`, reproduced in
`design/foundation-architecture.md`), the effect parameter lookup
(`BaseEffect` in `design/foundation-architecture.md`, plus the WebGL
renderer path in `packages/renderer-webgl2/src/texture-manager.ts`), the
radial-fill fragment shader (`RADIAL_FILL_FRAGMENT` in
`texture-manager.ts`), and the jump-flooding distance-field shaders
(`packages/effect-fluid-fill/src/shaders/sdf-init.frag.glsl` and
`sdf-jump.frag.glsl`).

JavaScript `number` and GLSL `float` values are idealised as real numbers;
the distance-field grid additionally tracks squared Euclidean distances in
`ℚ` (comparisons of nonnegative distances coincide with comparisons of
their squares, which keeps the jump-flood invariant decidable).
-/

namespace ComposiFX

noncomputable section

/-! ### Easing library

Embedded from the `easing.ts` listing in `design/foundation-architecture.md`
(lines 1058-1299).  JS `Math.pow(x, n)` with literal integer exponent is
embedded as the monoid power `x ^ (n : ℕ)` (JS `pow` on a possibly negative
base with an integer exponent); `Math.pow(2, e)` with a real exponent is the
real power `(2 : ℝ) ^ (e : ℝ)`.  The JS pre-decrement `--t` is inlined as
`t - 1`. -/

def linear : ℝ → ℝ := fun t => t

def easeInQuad : ℝ → ℝ := fun t => t * t

def easeOutQuad : ℝ → ℝ := fun t => t * (2 - t)

def easeInOutQuad : ℝ → ℝ := fun t =>
  if t < 0.5 then 2 * t * t else -1 + (4 - 2 * t) * t

def easeInCubic : ℝ → ℝ := fun t => t * t * t

def easeOutCubic : ℝ → ℝ := fun t => (t - 1) * (t - 1) * (t - 1) + 1

def easeInOutCubic : ℝ → ℝ := fun t =>
  if t < 0.5 then 4 * t * t * t else (t - 1) * (2 * t - 2) * (2 * t - 2) + 1

def easeInQuart : ℝ → ℝ := fun t => t * t * t * t

def easeOutQuart : ℝ → ℝ := fun t => 1 - (t - 1) * (t - 1) * (t - 1) * (t - 1)

def easeInOutQuart : ℝ → ℝ := fun t =>
  if t < 0.5 then 8 * t * t * t * t
  else 1 - 8 * (t - 1) * (t - 1) * (t - 1) * (t - 1)

def easeInQuint : ℝ → ℝ := fun t => t * t * t * t * t

def easeOutQuint : ℝ → ℝ := fun t =>
  1 + (t - 1) * (t - 1) * (t - 1) * (t - 1) * (t - 1)

def easeInOutQuint : ℝ → ℝ := fun t =>
  if t < 0.5 then 16 * t * t * t * t * t
  else 1 + 16 * (t - 1) * (t - 1) * (t - 1) * (t - 1) * (t - 1)

def easeInSine : ℝ → ℝ := fun t => 1 - Real.cos (t * Real.pi / 2)

def easeOutSine : ℝ → ℝ := fun t => Real.sin (t * Real.pi / 2)

def easeInOutSine : ℝ → ℝ := fun t => -(Real.cos (Real.pi * t) - 1) / 2

def easeInExpo : ℝ → ℝ := fun t =>
  if t = 0 then 0 else (2 : ℝ) ^ (10 * t - 10)

def easeOutExpo : ℝ → ℝ := fun t =>
  if t = 1 then 1 else 1 - (2 : ℝ) ^ (-10 * t)

def easeInOutExpo : ℝ → ℝ := fun t =>
  if t = 0 then 0
  else if t = 1 then 1
  else if t < 0.5 then (2 : ℝ) ^ (20 * t - 10) / 2
  else (2 - (2 : ℝ) ^ (-20 * t + 10)) / 2

def easeInCirc : ℝ → ℝ := fun t => 1 - Real.sqrt (1 - t * t)

def easeOutCirc : ℝ → ℝ := fun t => Real.sqrt (1 - (t - 1) * (t - 1))

def easeInOutCirc : ℝ → ℝ := fun t =>
  if t < 0.5 then (1 - Real.sqrt (1 - (2 * t) ^ (2 : ℕ))) / 2
  else (Real.sqrt (1 - (-2 * t + 2) ^ (2 : ℕ)) + 1) / 2

def easeInBack : ℝ → ℝ := fun t =>
  let c1 : ℝ := 1.70158
  let c3 : ℝ := c1 + 1
  c3 * t * t * t - c1 * t * t

def easeOutBack : ℝ → ℝ := fun t =>
  let c1 : ℝ := 1.70158
  let c3 : ℝ := c1 + 1
  1 + c3 * (t - 1) ^ (3 : ℕ) + c1 * (t - 1) ^ (2 : ℕ)

def easeInOutBack : ℝ → ℝ := fun t =>
  let c1 : ℝ := 1.70158
  let c2 : ℝ := c1 * 1.525
  if t < 0.5 then ((2 * t) ^ (2 : ℕ) * ((c2 + 1) * 2 * t - c2)) / 2
  else ((2 * t - 2) ^ (2 : ℕ) * ((c2 + 1) * (t * 2 - 2) + c2) + 2) / 2

def easeInElastic : ℝ → ℝ := fun t =>
  let c4 : ℝ := 2 * Real.pi / 3
  if t = 0 then 0
  else if t = 1 then 1
  else -((2 : ℝ) ^ (10 * t - 10)) * Real.sin ((t * 10 - 10.75) * c4)

def easeOutElastic : ℝ → ℝ := fun t =>
  let c4 : ℝ := 2 * Real.pi / 3
  if t = 0 then 0
  else if t = 1 then 1
  else (2 : ℝ) ^ (-10 * t) * Real.sin ((t * 10 - 0.75) * c4) + 1

def easeInOutElastic : ℝ → ℝ := fun t =>
  let c5 : ℝ := 2 * Real.pi / 4.5
  if t = 0 then 0
  else if t = 1 then 1
  else if t < 0.5 then
    -((2 : ℝ) ^ (20 * t - 10) * Real.sin ((20 * t - 11.125) * c5)) / 2
  else (2 : ℝ) ^ (-20 * t + 10) * Real.sin ((20 * t - 11.125) * c5) / 2 + 1

def easeOutBounce : ℝ → ℝ := fun t =>
  let n1 : ℝ := 7.5625
  let d1 : ℝ := 2.75
  if t < 1 / d1 then n1 * t * t
  else if t < 2 / d1 then n1 * (t - 1.5 / d1) * (t - 1.5 / d1) + 0.75
  else if t < 2.5 / d1 then n1 * (t - 2.25 / d1) * (t - 2.25 / d1) + 0.9375
  else n1 * (t - 2.625 / d1) * (t - 2.625 / d1) + 0.984375

def easeInBounce : ℝ → ℝ := fun t => 1 - easeOutBounce (1 - t)

def easeInOutBounce : ℝ → ℝ := fun t =>
  if t < 0.5 then (1 - easeOutBounce (1 - 2 * t)) / 2
  else (1 + easeOutBounce (2 * t - 1)) / 2

/-! ### Keyframe track (packages/core/src/parameter.ts)

`Keyframe<T>` and `Parameter<T>` from `types.ts` / `parameter.ts`.  The
optional `easing` member of a keyframe is an `Option`; the code falls back
to `easing.linear` via `kf2.easing || easing.linear`.  The protected
`lerp` method is overridden per concrete track type, so the evaluation
functions take the lerp capability as an explicit argument; the numeric
branch of the base class (`(a + (b - a) * t)`) is `numberLerp`. -/

structure Keyframe (T : Type) where
  time : ℝ
  value : T
  easing : Option (ℝ → ℝ) := none
  inTangent : Option T := none
  outTangent : Option T := none

structure Parameter (T : Type) where
  defaultValue : T
  min : Option T := none
  max : Option T := none
  keyframes : List (Keyframe T) := []

/-- The easing actually applied for a transition: `kf2.easing || easing.linear`. -/
def Keyframe.easingFn {T : Type} (k : Keyframe T) : ℝ → ℝ :=
  k.easing.getD linear

/-- The numeric branch of `Parameter.lerp`: `a + (b - a) * t`. -/
def numberLerp (a b t : ℝ) : ℝ := a + (b - a) * t

/-- `Parameter.interpolate(kf1, kf2, time)`: progress over the pair's time
span, eased by the arrival keyframe's easing, then lerped.  (In the source,
a zero `duration` would divide by zero; `valueAt` never selects such a
pair, which is proved below.) -/
def interpolate {T : Type} (lerp : T → T → ℝ → T)
    (kf1 kf2 : Keyframe T) (time : ℝ) : T :=
  let duration := kf2.time - kf1.time
  let progress := (time - kf1.time) / duration
  let easedProgress := kf2.easingFn progress
  lerp kf1.value kf2.value easedProgress

/-- The surrounding-keyframes scan of `Parameter.valueAt` (lines 53-60):
the first adjacent pair `(kf1, kf2)` with `time ≥ kf1.time ∧ time ≤ kf2.time`. -/
def findPair {T : Type} (time : ℝ) :
    List (Keyframe T) → Option (Keyframe T × Keyframe T)
  | kf1 :: kf2 :: rest =>
    if time ≥ kf1.time ∧ time ≤ kf2.time then some (kf1, kf2)
    else findPair time (kf2 :: rest)
  | _ => none

/-- `Parameter.valueAt(time)` from `parameter.ts` lines 36-63. -/
def Parameter.valueAt {T : Type} (lerp : T → T → ℝ → T)
    (p : Parameter T) (time : ℝ) : T :=
  match p.keyframes with
  | [] => p.defaultValue
  | k0 :: rest =>
    if time ≤ k0.time then k0.value
    else
      let lastKeyframe := (k0 :: rest).getLast (by simp)
      if time ≥ lastKeyframe.time then lastKeyframe.value
      else
        match findPair time (k0 :: rest) with
        | some (kf1, kf2) => interpolate lerp kf1 kf2 time
        | none => p.defaultValue

/-- `Parameter.clamp(value)` (numeric case), lines 96-102. -/
def Parameter.clamp (p : Parameter ℝ) (value : ℝ) : ℝ :=
  match p.min, p.max with
  | some lo, some hi => Max.max lo (Min.min hi value)
  | _, _ => value

/-- `Parameter.addKeyframe`: push, then stable-sort the sequence by time. -/
def Parameter.addKeyframe {T : Type} (p : Parameter T) (k : Keyframe T) :
    Parameter T :=
  { p with
    keyframes :=
      (p.keyframes ++ [k]).mergeSort (fun a b => decide (a.time ≤ b.time)) }

/-- `Parameter.clearKeyframes`. -/
def Parameter.clearKeyframes {T : Type} (p : Parameter T) : Parameter T :=
  { p with keyframes := [] }

/-- The sortedness invariant `addKeyframe` maintains (ascending by time). -/
def TimeSorted {T : Type} (kfs : List (Keyframe T)) : Prop :=
  kfs.Sorted (fun a b => a.time ≤ b.time)

/-! ### Layer opacity path (packages/core/src/layer.ts)

Only the fields the claims touch: the opacity parameter (created with
bounds `0, 1` by the constructor) and the `_currentTime` cursor. -/

structure Layer where
  opacity : Parameter ℝ
  currentTime : ℝ

/-- The `Layer` constructor's opacity setup:
`new NumberParameter(options.opacity !== undefined ? options.opacity : 1, 0, 1)`
(with `_currentTime = 0`). -/
def mkLayer (opacityDefault : ℝ) : Layer :=
  { opacity := { defaultValue := opacityDefault, min := some 0, max := some 1 }
    currentTime := 0 }

/-- `Layer.updateTime(time)`. -/
def Layer.updateTime (l : Layer) (t : ℝ) : Layer :=
  { l with currentTime := t }

/-- `Layer.getOpacity()`: `this.opacity.valueAt(this._currentTime)` —
note the absence of any call to `clamp`. -/
def Layer.getOpacity (l : Layer) : ℝ :=
  l.opacity.valueAt numberLerp l.currentTime

/-! ### Effect parameter lookup

`BaseEffect.getParameterValue` / `BaseEffect.animate` from the `effect.ts`
listing in `design/foundation-architecture.md` (the `throw` branches become
`Except.error`), and the parameter read in
`EffectRenderer.applyFluidFill` (`texture-manager.ts` line 328):
`effect.parameters['progress']?.valueAt(context.time) ?? 0`. -/

/-- `Record<string, Parameter>`: an association list keyed by name. -/
def Params : Type := List (String × Parameter ℝ)

/-- `BaseEffect.getParameterValue(name, time)`: throws when the name is
not bound. -/
def getParameterValue (params : Params) (effectName name : String)
    (time : ℝ) : Except String ℝ :=
  match List.lookup name params with
  | none =>
    Except.error ("Parameter " ++ name ++ " not found on effect " ++ effectName)
  | some param => Except.ok (param.valueAt numberLerp time)

/-- `BaseEffect.animate(parameterName, keyframes)`: throws when the name is
not bound; otherwise clears the parameter and adds each keyframe in order. -/
def animate (params : Params) (effectName parameterName : String)
    (kfs : List (Keyframe ℝ)) : Except String Params :=
  match List.lookup parameterName params with
  | none =>
    Except.error
      ("Parameter " ++ parameterName ++ " not found on effect " ++ effectName)
  | some param =>
    Except.ok
      (params.map (fun entry =>
        if entry.1 = parameterName then
          (entry.1, kfs.foldl Parameter.addKeyframe param.clearKeyframes)
        else entry))

/-- The progress read in `EffectRenderer.applyFluidFill`:
`effect.parameters['progress']?.valueAt(context.time) ?? 0`.  A missing
`progress` parameter silently becomes `0`. -/
def applyFluidFillProgress (params : Params) (time : ℝ) : ℝ :=
  match List.lookup ("progress") params with
  | some param => param.valueAt numberLerp time
  | none => 0

/-- The direction-to-int mapping in `EffectRenderer.applyFluidFill`
(`texture-manager.ts` lines 363-369): `directionMap[direction] ?? 0`. -/
def directionMap : String → Option ℕ
  | "center-out" => some 0
  | "edge-in" => some 1
  | "left-right" => some 2
  | "top-bottom" => some 3
  | _ => none

/-- `const directionValue = directionMap[direction] ?? 0`. -/
def directionValue (direction : String) : ℕ :=
  (directionMap direction).getD 0

/-! ### Radial fill fragment shader

`RADIAL_FILL_FRAGMENT` from `texture-manager.ts` (lines 463-529), per
fragment.  GLSL `length(v)` is `Real.sqrt (v.x² + v.y²)`,
`step(edge, x)` is `x < edge ? 0 : 1`, and `mix(x, y, a)` is
`x * (1 - a) + y * a`. -/

structure RGBA where
  r : ℝ
  g : ℝ
  b : ℝ
  a : ℝ

def glslStep (edge x : ℝ) : ℝ := if x < edge then 0 else 1

def glslMix (x y a : ℝ) : ℝ := x * (1 - a) + y * a

/-- The `normalizedDist` computation of the shader `main` (lines 490-510):
mode 0 = center-out, 1 = edge-in, 2 = left-right, 3 = top-bottom,
any other mode leaves the initial `0.0`. -/
def radialFillNormalizedDist (direction : ℕ) (anchorPoint uv : ℝ × ℝ) : ℝ :=
  if direction = 0 then
    Real.sqrt ((uv.1 - anchorPoint.1) ^ (2 : ℕ) + (uv.2 - anchorPoint.2) ^ (2 : ℕ)) /
      Real.sqrt 2
  else if direction = 1 then
    1 - Real.sqrt ((uv.1 - anchorPoint.1) ^ (2 : ℕ) + (uv.2 - anchorPoint.2) ^ (2 : ℕ)) /
      Real.sqrt 2
  else if direction = 2 then uv.1
  else if direction = 3 then 1 - uv.2
  else 0

/-- `float fillAmount = 1.0 - step(u_progress, normalizedDist);` -/
def fillAmount (progress normalizedDist : ℝ) : ℝ :=
  1 - glslStep progress normalizedDist

/-- The whole fragment computation of `RADIAL_FILL_FRAGMENT.main` for one
pixel, given the sampled source color `texColor`. -/
def radialFillFragment (direction : ℕ) (anchorPoint : ℝ × ℝ)
    (progress threshold : ℝ) (fillColor : RGBA) (uv : ℝ × ℝ)
    (texColor : RGBA) : RGBA :=
  let normalizedDist := radialFillNormalizedDist direction anchorPoint uv
  let fill := fillAmount progress normalizedDist
  let alphaMask := glslStep threshold texColor.a
  let finalFill := fill * alphaMask
  let outputColor : RGBA :=
    { r := glslMix texColor.r fillColor.r finalFill
      g := glslMix texColor.g fillColor.g finalFill
      b := glslMix texColor.b fillColor.b finalFill
      a := glslMix texColor.a fillColor.a finalFill }
  { outputColor with a := texColor.a }

end

/-! ### Jump-flooding distance field

`sdf-init.frag.glsl` and `sdf-jump.frag.glsl`, per texel.  A texture of
size `w × h` is a function `Fin w × Fin h → SDFCell`; the shaders run over
texel centers `((i + 1/2) / w, (j + 1/2) / h)`, and a neighbor offset of
`stepSize` texels lands exactly on another texel center, so the shader's
UV bounds test `neighborUV < 0 ∨ neighborUV > 1` coincides with the integer
bounds test on the neighbor index.  The `z` channel stores the squared
Euclidean distance (the GLSL code stores the distance itself; both carry
the same information for nonnegative values and compare identically, and
the squared form stays inside `ℚ`).  The sentinel `999999.0` of the init
shader correspondingly becomes `999999 ^ 2`.  The `a` channel
(`1.0` = valid, `0.0` = invalid, tested as `a > 0.5`) is a `Bool`. -/

/-- One cell of the SDF ping-pong buffer: `r,g` = seed UV, `z` = (squared)
distance, `a` = validity flag. -/
structure SDFCell where
  seed : ℚ × ℚ
  distSq : ℚ
  valid : Bool
deriving DecidableEq

def SDFGrid (w h : ℕ) : Type := Fin w × Fin h → SDFCell

/-- UV coordinate of the center of texel `p`. -/
def texelUV {w h : ℕ} (p : Fin w × Fin h) : ℚ × ℚ :=
  (((p.1 : ℚ) + 1 / 2) / w, ((p.2 : ℚ) + 1 / 2) / h)

/-- Squared Euclidean distance between two UV points. -/
def sqDist (a b : ℚ × ℚ) : ℚ :=
  (a.1 - b.1) ^ (2 : ℕ) + (a.2 - b.2) ^ (2 : ℕ)

/-- `sdf-init.frag.glsl` `main`: a pixel with `alpha > threshold` becomes a
seed recording its own coordinates at distance 0; any other pixel gets the
invalid sentinel `vec4(-1, -1, 999999, 0)`. -/
def sdfInit {w h : ℕ} (alpha : Fin w × Fin h → ℚ) (threshold : ℚ) :
    SDFGrid w h :=
  fun p =>
    if alpha p > threshold then
      { seed := texelUV p, distSq := 0, valid := true }
    else
      { seed := (-1, -1), distSq := 999999 ^ (2 : ℕ), valid := false }

/-- Sampling the previous-pass buffer at an integer texel index, `none`
when the index is out of bounds (the shader's `continue`). -/
def sampleGrid {w h : ℕ} (g : SDFGrid w h) (i j : ℤ) : Option SDFCell :=
  if hij : 0 ≤ i ∧ i < (w : ℤ) ∧ 0 ≤ j ∧ j < (h : ℤ) then
    some (g (⟨i.toNat, by omega⟩, ⟨j.toNat, by omega⟩))
  else none

/-- The loop order of the 3×3 neighborhood scan: `y` outer, `x` inner. -/
def jumpOffsets : List (ℤ × ℤ) :=
  [(-1, -1), (0, -1), (1, -1), (-1, 0), (0, 0), (1, 0), (-1, 1), (0, 1), (1, 1)]

/-- One iteration of the inner loop body of `sdf-jump.frag.glsl`: sample
the neighbor at offset `off * stepSize`; if it is in bounds and valid and
its seed is strictly closer to the *current* pixel, adopt that seed. -/
def jumpUpdate {w h : ℕ} (g : SDFGrid w h) (p : Fin w × Fin h)
    (stepSize : ℕ) (closest : SDFCell) (off : ℤ × ℤ) : SDFCell :=
  match sampleGrid g ((p.1 : ℤ) + off.1 * stepSize) ((p.2 : ℤ) + off.2 * stepSize) with
  | none => closest
  | some neighbor =>
    if neighbor.valid then
      let dist := sqDist (texelUV p) neighbor.seed
      if dist < closest.distSq then
        { seed := neighbor.seed, distSq := dist, valid := true }
      else closest
    else closest

/-- `sdf-jump.frag.glsl` `main` for one full pass: start from the pixel's
own current value and fold the 3×3 neighborhood scan over it. -/
def sdfJump {w h : ℕ} (g : SDFGrid w h) (stepSize : ℕ) : SDFGrid w h :=
  fun p => jumpOffsets.foldl (jumpUpdate g p stepSize) (g p)

/-- Per-cell statement of the seed-buffer invariant: when the cell is
valid, it records a genuine seed (a texel whose source alpha exceeds the
threshold) and the exact (squared) Euclidean distance from the cell `p`'s
own center to that seed. -/
def CellOK {w h : ℕ} (alpha : Fin w × Fin h → ℚ) (threshold : ℚ)
    (p : Fin w × Fin h) (c : SDFCell) : Prop :=
  c.valid = true →
    (∃ q : Fin w × Fin h, c.seed = texelUV q ∧ alpha q > threshold) ∧
    c.distSq = sqDist (texelUV p) c.seed

instance {w h : ℕ} (alpha : Fin w × Fin h → ℚ) (threshold : ℚ)
    (p : Fin w × Fin h) (c : SDFCell) :
    Decidable (CellOK alpha threshold p c) := by
  unfold CellOK; infer_instance

/-- The seed-buffer invariant of the claims, cell by cell. -/
def SDFInvariant {w h : ℕ} (alpha : Fin w × Fin h → ℚ) (threshold : ℚ)
    (g : SDFGrid w h) : Prop :=
  ∀ p : Fin w × Fin h, CellOK alpha threshold p (g p)

instance {w h : ℕ} (alpha : Fin w × Fin h → ℚ) (threshold : ℚ)
    (g : SDFGrid w h) : Decidable (SDFInvariant alpha threshold g) := by
  unfold SDFInvariant; infer_instance

/-- Euclidean distance between UV points, as a real number. -/
noncomputable def euclidDist (a b : ℚ × ℚ) : ℝ :=
  Real.sqrt ((sqDist a b : ℚ) : ℝ)

/-- A 2×2 opacity source with a single opaque texel, used to instantiate
the jump-flood invariant on a concrete input. -/
def demoAlpha : Fin 2 × Fin 2 → ℚ :=
  fun p => if p.1 = 0 ∧ p.2 = 0 then 1 else 0

/-- A 2×2 buffer of all-invalid cells (the init shader's sentinel value
everywhere); the seed-buffer invariant holds for it vacuously. -/
def invalidGrid : SDFGrid 2 2 :=
  fun _ => { seed := (-1, -1), distSq := 999999 ^ (2 : ℕ), valid := false }

noncomputable section

/-- The track of the arrival-easing scenario: keyframes
`(0, 0, easing = linear)` and `(1, 10, easing = easeInQuad)`. -/
def arrivalDemoTrack : Parameter ℝ :=
  { defaultValue := 0
    keyframes :=
      [ { time := 0, value := 0, easing := some linear }
      , { time := 1, value := 10, easing := some easeInQuad } ] }

/-- A track whose two keyframes share the same time with different
values — permitted by `addKeyframe` (duplicate times are kept). -/
def dupTimeTrack : Parameter ℝ :=
  { defaultValue := 0
    keyframes :=
      [ { time := 5, value := 1 }, { time := 5, value := 2 } ] }

/-- A layer whose opacity track holds a keyframe with value `5`, well
outside `[0, 1]`: built through the constructor (which installs the
`0, 1` bounds) and `addKeyframe`. -/
def overOpacityLayer : Layer :=
  { mkLayer 1 with
    opacity := (mkLayer 1).opacity.addKeyframe { time := 0, value := 5 } }

end

/-! ## Theorems -/

/-- Every element of a time-sorted keyframe list has time at most the last
keyframe's time. -/
theorem time_le_getLast {T : Type} (kfs : List (Keyframe T)) (hne : kfs ≠ [])
    (hs : TimeSorted kfs) : ∀ k ∈ kfs, k.time ≤ (kfs.getLast hne).time := by
  intro k hk
  have hdec := List.dropLast_append_getLast hne
  have hs2 : List.Pairwise (fun a b : Keyframe T => a.time ≤ b.time)
      (kfs.dropLast ++ [kfs.getLast hne]) := by
    rw [hdec]; exact hs
  have hk2 : k ∈ kfs.dropLast ++ [kfs.getLast hne] := by
    rw [hdec]; exact hk
  rcases List.mem_append.mp hk2 with hmem | hmem
  · exact (List.pairwise_append.mp hs2).2.2 k hmem _ (List.mem_singleton_self _)
  · have hkl : k = kfs.getLast hne := List.mem_singleton.mp hmem
    rw [hkl]

/-- C4: on a time-sorted keyframe list, once `valueAt` has passed the
"before first keyframe" early return (so the query time is strictly after
the first keyframe's time), the flanking pair that the surrounding-keyframes
scan selects always satisfies `kf1.time < kf2.time`; in particular the
divisor `kf2.time - kf1.time` of `interpolate`'s progress computation is
never zero, so no division by a zero-length interval (and no NaN/Infinity
from it) can occur. -/
theorem findPair_selects_strict_span {T : Type} (time : ℝ) :
    ∀ kfs : List (Keyframe T), TimeSorted kfs →
      (∀ k0, kfs.head? = some k0 → k0.time < time) →
      ∀ kf1 kf2, findPair time kfs = some (kf1, kf2) →
        kf1.time < kf2.time ∧ kf2.time - kf1.time ≠ 0 := by
  intro kfs
  induction kfs with
  | nil =>
    intro _ _ kf1 kf2 hfp
    simp [findPair] at hfp
  | cons ka tail ih =>
    intro hs hhead kf1 kf2 hfp
    cases tail with
    | nil => simp [findPair] at hfp
    | cons kb rest =>
      have hka : ka.time < time := hhead ka rfl
      rw [findPair] at hfp
      split at hfp
      case isTrue hcond =>
        have hpair : (ka, kb) = (kf1, kf2) := Option.some.inj hfp
        have hka1 : ka = kf1 := congrArg Prod.fst hpair
        have hkb2 : kb = kf2 := congrArg Prod.snd hpair
        subst hka1
        subst hkb2
        have hlt : ka.time < kb.time := lt_of_lt_of_le hka hcond.2
        exact ⟨hlt, sub_ne_zero_of_ne (ne_of_gt hlt)⟩
      case isFalse hcond =>
        refine ih (List.Sorted.of_cons hs) ?_ kf1 kf2 hfp
        intro k0 hk0
        have hk0b : kb = k0 := by simpa using hk0
        subst hk0b
        by_contra hnot
        exact hcond ⟨le_of_lt hka, le_of_not_lt hnot⟩

/-- Witness for C4 at the concrete sorted track with keyframes at times
`0` and `1` and query time `1/2`. -/
theorem findPair_selects_strict_span_witness :
    ({ time := 0, value := 0 } : Keyframe ℝ).time <
      ({ time := 1, value := 10 } : Keyframe ℝ).time ∧
    ({ time := 1, value := 10 } : Keyframe ℝ).time -
      ({ time := 0, value := 0 } : Keyframe ℝ).time ≠ 0 :=
  findPair_selects_strict_span (1 / 2)
    ([{ time := 0, value := 0 }, { time := 1, value := 10 }] : List (Keyframe ℝ))
    (by simp [TimeSorted])
    (by
      intro k0 hk0
      have hk0e : ({ time := 0, value := 0 } : Keyframe ℝ) = k0 := by
        simpa using hk0
      rw [← hk0e]
      norm_num)
    { time := 0, value := 0 } { time := 1, value := 10 }
    (by norm_num [findPair])

/-- C6 (amended): with no keyframes `valueAt` returns the default value;
for `time ≤` the first keyframe's time it returns the first keyframe's
value exactly (no easing); for `time ≥` the last keyframe's time it
returns the last keyframe's value exactly — *except* when `time ≤` the
first keyframe's time as well (every keyframe sharing one time): the
"before first" branch fires first and the first keyframe's value wins. -/
theorem valueAt_flat_extrapolation {T : Type} (lerp : T → T → ℝ → T)
    (p : Parameter T) (time : ℝ) :
    (p.keyframes = [] → p.valueAt lerp time = p.defaultValue)
    ∧ (∀ k0 rest, p.keyframes = k0 :: rest → time ≤ k0.time →
        p.valueAt lerp time = k0.value)
    ∧ (∀ k0 rest, p.keyframes = k0 :: rest →
        ((k0 :: rest).getLast (by simp)).time ≤ time → ¬ time ≤ k0.time →
        p.valueAt lerp time = ((k0 :: rest).getLast (by simp)).value) := by
  refine ⟨?_, ?_, ?_⟩
  · intro h
    simp only [Parameter.valueAt, h]
  · intro k0 rest h htime
    simp only [Parameter.valueAt, h]
    rw [if_pos htime]
  · intro k0 rest h hlast hnot
    simp only [Parameter.valueAt, h]
    rw [if_neg hnot, if_pos hlast]

/-- Witness for C6 on concrete tracks: an empty track queried at `9`, the
demo track queried before its first keyframe and after its last one. -/
theorem valueAt_flat_extrapolation_witness :
    Parameter.valueAt numberLerp ({ defaultValue := 3 } : Parameter ℝ) 9 = 3
    ∧ Parameter.valueAt numberLerp arrivalDemoTrack (-1) = 0
    ∧ Parameter.valueAt numberLerp arrivalDemoTrack 2 = 10 := by
  refine ⟨?_, ?_, ?_⟩
  · exact (valueAt_flat_extrapolation numberLerp { defaultValue := 3 } 9).1 rfl
  · have h := (valueAt_flat_extrapolation numberLerp arrivalDemoTrack (-1)).2.1
      { time := 0, value := 0, easing := some linear }
      [{ time := 1, value := 10, easing := some easeInQuad }]
      rfl (by norm_num)
    simpa using h
  · have h := (valueAt_flat_extrapolation numberLerp arrivalDemoTrack 2).2.2
      { time := 0, value := 0, easing := some linear }
      [{ time := 1, value := 10, easing := some easeInQuad }]
      rfl (by norm_num [List.getLast]) (by norm_num)
    simpa [List.getLast] using h

/-- Counterexample to C6 as stated: in the degenerate track whose two
keyframes both sit at time `5` (values `1` and `2`), the query time `5`
satisfies `time ≥` the last keyframe's time, yet `valueAt` returns the
*first* keyframe's value `1`, not the last keyframe's value `2`. -/
theorem valueAt_last_extrapolation_counterexample :
    (dupTimeTrack.keyframes.getLast (by simp [dupTimeTrack])).time ≤ 5
    ∧ Parameter.valueAt numberLerp dupTimeTrack 5 = 1
    ∧ (dupTimeTrack.keyframes.getLast (by simp [dupTimeTrack])).value = 2
    ∧ (1 : ℝ) ≠ 2 := by
  refine ⟨?_, ?_, ?_, ?_⟩
  · norm_num [dupTimeTrack, List.getLast]
  · norm_num [Parameter.valueAt, dupTimeTrack]
  · norm_num [dupTimeTrack, List.getLast]
  · norm_num

/-- On a time-sorted list, when the query time lies in `(kf1.time, kf2.time]`
for the adjacent pair `kf1, kf2`, the surrounding-keyframes scan selects
exactly that pair (every earlier pair fails the `time ≤` test). -/
theorem findPair_flank {T : Type} (time : ℝ) (kf1 kf2 : Keyframe T)
    (post : List (Keyframe T)) (h1 : kf1.time < time) (h2 : time ≤ kf2.time) :
    ∀ pre : List (Keyframe T), TimeSorted (pre ++ kf1 :: kf2 :: post) →
      findPair time (pre ++ kf1 :: kf2 :: post) = some (kf1, kf2) := by
  intro pre
  induction pre with
  | nil =>
    intro _
    rw [List.nil_append, findPair, if_pos ⟨le_of_lt h1, h2⟩]
  | cons a pre2 ih =>
    intro hs
    cases pre2 with
    | nil =>
      have hs2 : TimeSorted ([] ++ kf1 :: kf2 :: post) :=
        List.Sorted.of_cons hs
      rw [List.nil_append] at hs2
      rw [List.cons_append, List.nil_append, findPair, if_neg ?_]
      · exact ih (by rw [List.nil_append]; exact hs2)
      · rintro ⟨_, hle⟩
        exact absurd hle (not_le.mpr h1)
    | cons b pre3 =>
      have hs2 : TimeSorted ((b :: pre3) ++ kf1 :: kf2 :: post) :=
        List.Sorted.of_cons hs
      have hbk : b.time ≤ kf1.time := by
        have hrel := List.rel_of_sorted_cons
          (by rw [List.cons_append] at hs2; exact hs2)
        exact hrel kf1 (by simp)
      rw [List.cons_append, List.cons_append, findPair, if_neg ?_]
      · have hgoal := ih hs2
        rw [List.cons_append] at hgoal
        exact hgoal
      · rintro ⟨_, hle⟩
        exact absurd hle (not_le.mpr (lt_of_le_of_lt hbk h1))

/-- C1: for a query time strictly between the adjacent flanking keyframes
`kf1` and `kf2` of a time-sorted track, `valueAt` interpolates with the
easing attached to the *arrival* keyframe `kf2` (`kf2.easing || linear`)
applied to the normalized progress — the result is a function of
`kf2.easingFn` only, so `kf1`'s easing is never consulted.  The concrete
conjuncts check the spec's scenario: with keyframes
`(0, 0, easing = linear)` and `(1, 10, easing = easeInQuad)`,
`valueAt(0.5) = 10 * easeInQuad(0.5)` and not `10 * linear(0.5)`. -/
theorem valueAt_applies_arrival_easing {T : Type} (lerp : T → T → ℝ → T)
    (dflt : T) (mn mx : Option T) (pre post : List (Keyframe T))
    (kf1 kf2 : Keyframe T) (time : ℝ)
    (hs : TimeSorted (pre ++ kf1 :: kf2 :: post))
    (h1 : kf1.time < time) (h2 : time < kf2.time) :
    Parameter.valueAt lerp (Parameter.mk dflt mn mx (pre ++ kf1 :: kf2 :: post)) time
      = lerp kf1.value kf2.value
          (kf2.easingFn ((time - kf1.time) / (kf2.time - kf1.time)))
    ∧ Parameter.valueAt numberLerp arrivalDemoTrack (1 / 2) = 10 * easeInQuad (1 / 2)
    ∧ Parameter.valueAt numberLerp arrivalDemoTrack (1 / 2) ≠ 10 * linear (1 / 2) := by
  refine ⟨?_, ?_, ?_⟩
  · obtain ⟨k0, rest, hlist⟩ :
        ∃ k0 rest, pre ++ kf1 :: kf2 :: post = k0 :: rest := by
      cases pre with
      | nil => exact ⟨kf1, kf2 :: post, rfl⟩
      | cons a l => exact ⟨a, l ++ kf1 :: kf2 :: post, by simp⟩
    have hs2 : TimeSorted (k0 :: rest) := by rw [← hlist]; exact hs
    have hmem1 : kf1 ∈ k0 :: rest := by
      rw [← hlist]; simp
    have hmem2 : kf2 ∈ k0 :: rest := by
      rw [← hlist]; simp
    have hhead : k0.time ≤ kf1.time := by
      rcases List.mem_cons.mp hmem1 with heq | hmem
      · rw [heq]
      · exact List.rel_of_sorted_cons hs2 kf1 hmem
    have hnotfirst : ¬ time ≤ k0.time :=
      not_le.mpr (lt_of_le_of_lt hhead h1)
    have hlastle : kf2.time ≤ ((k0 :: rest).getLast (by simp)).time :=
      time_le_getLast (k0 :: rest) (by simp) hs2 kf2 hmem2
    have hnotlast : ¬ time ≥ ((k0 :: rest).getLast (by simp)).time :=
      not_le.mpr (lt_of_lt_of_le h2 hlastle)
    have hfp : findPair time (k0 :: rest) = some (kf1, kf2) := by
      rw [← hlist]
      exact findPair_flank time kf1 kf2 post h1 (le_of_lt h2) pre hs
    simp only [Parameter.valueAt, hlist]
    rw [if_neg hnotfirst, if_neg hnotlast, hfp]
    simp only [interpolate]
  · norm_num [Parameter.valueAt, arrivalDemoTrack, findPair, interpolate,
      Keyframe.easingFn, numberLerp, easeInQuad, List.getLast]
  · norm_num [Parameter.valueAt, arrivalDemoTrack, findPair, interpolate,
      Keyframe.easingFn, numberLerp, easeInQuad, linear, List.getLast]

/-- Witness for C1: the general arrival-easing equation applied to the
two-keyframe demo configuration at query time `1/2`. -/
theorem valueAt_applies_arrival_easing_witness :
    Parameter.valueAt numberLerp
        (Parameter.mk (0 : ℝ) none none
          ([] ++ ({ time := 0, value := 0, easing := some linear } : Keyframe ℝ) ::
            ({ time := 1, value := 10, easing := some easeInQuad } : Keyframe ℝ) :: []))
        (1 / 2)
      = numberLerp 0 10 (easeInQuad ((1 / 2 - 0) / (1 - 0))) := by
  have h := (valueAt_applies_arrival_easing numberLerp 0 none none [] []
    { time := 0, value := 0, easing := some linear }
    { time := 1, value := 10, easing := some easeInQuad }
    (1 / 2)
    (by norm_num [TimeSorted, List.sorted_cons])
    (by norm_num) (by norm_num)).1
  simpa [Keyframe.easingFn] using h

/-- C3 (code bug): `Layer.getOpacity` returns the raw `valueAt` result
without invoking `Parameter.clamp`, although the `Layer` constructor
installs the bounds `(0, 1)` on the opacity parameter.  With an opacity
keyframe of value `5`, `getOpacity` after `updateTime(0)` returns `5`,
outside `[0, 1]`; the (never-called) `clamp` would have returned `1`. -/
theorem getOpacity_not_clamped :
    (overOpacityLayer.updateTime 0).getOpacity = 5
    ∧ ¬ (overOpacityLayer.updateTime 0).getOpacity ≤ 1
    ∧ overOpacityLayer.opacity.clamp ((overOpacityLayer.updateTime 0).getOpacity) = 1 := by
  have hval : (overOpacityLayer.updateTime 0).getOpacity = 5 := by
    simp [overOpacityLayer, mkLayer, Layer.updateTime, Layer.getOpacity,
      Parameter.addKeyframe, Parameter.valueAt]
  refine ⟨hval, by rw [hval]; norm_num, ?_⟩
  rw [hval]
  simp [overOpacityLayer, mkLayer, Parameter.addKeyframe, Parameter.clamp]

theorem linear_boundary : linear 0 = 0 ∧ linear 1 = 1 := by
  constructor <;> norm_num [linear]

theorem easeInQuad_boundary : easeInQuad 0 = 0 ∧ easeInQuad 1 = 1 := by
  constructor <;> norm_num [easeInQuad]

theorem easeOutQuad_boundary : easeOutQuad 0 = 0 ∧ easeOutQuad 1 = 1 := by
  constructor <;> norm_num [easeOutQuad]

theorem easeInOutQuad_boundary : easeInOutQuad 0 = 0 ∧ easeInOutQuad 1 = 1 := by
  constructor <;> norm_num [easeInOutQuad]

theorem easeInCubic_boundary : easeInCubic 0 = 0 ∧ easeInCubic 1 = 1 := by
  constructor <;> norm_num [easeInCubic]

theorem easeOutCubic_boundary : easeOutCubic 0 = 0 ∧ easeOutCubic 1 = 1 := by
  constructor <;> norm_num [easeOutCubic]

theorem easeInOutCubic_boundary : easeInOutCubic 0 = 0 ∧ easeInOutCubic 1 = 1 := by
  constructor <;> norm_num [easeInOutCubic]

theorem easeInQuart_boundary : easeInQuart 0 = 0 ∧ easeInQuart 1 = 1 := by
  constructor <;> norm_num [easeInQuart]

theorem easeOutQuart_boundary : easeOutQuart 0 = 0 ∧ easeOutQuart 1 = 1 := by
  constructor <;> norm_num [easeOutQuart]

theorem easeInOutQuart_boundary : easeInOutQuart 0 = 0 ∧ easeInOutQuart 1 = 1 := by
  constructor <;> norm_num [easeInOutQuart]

theorem easeInQuint_boundary : easeInQuint 0 = 0 ∧ easeInQuint 1 = 1 := by
  constructor <;> norm_num [easeInQuint]

theorem easeOutQuint_boundary : easeOutQuint 0 = 0 ∧ easeOutQuint 1 = 1 := by
  constructor <;> norm_num [easeOutQuint]

theorem easeInOutQuint_boundary : easeInOutQuint 0 = 0 ∧ easeInOutQuint 1 = 1 := by
  constructor <;> norm_num [easeInOutQuint]

theorem easeInSine_boundary : easeInSine 0 = 0 ∧ easeInSine 1 = 1 := by
  constructor <;> norm_num [easeInSine]

theorem easeOutSine_boundary : easeOutSine 0 = 0 ∧ easeOutSine 1 = 1 := by
  constructor <;> norm_num [easeOutSine]

theorem easeInOutSine_boundary : easeInOutSine 0 = 0 ∧ easeInOutSine 1 = 1 := by
  constructor <;> norm_num [easeInOutSine, Real.cos_pi]

theorem easeInExpo_boundary : easeInExpo 0 = 0 ∧ easeInExpo 1 = 1 := by
  constructor <;> norm_num [easeInExpo]

theorem easeOutExpo_boundary : easeOutExpo 0 = 0 ∧ easeOutExpo 1 = 1 := by
  constructor <;> norm_num [easeOutExpo]

theorem easeInOutExpo_boundary : easeInOutExpo 0 = 0 ∧ easeInOutExpo 1 = 1 := by
  constructor <;> norm_num [easeInOutExpo]

theorem easeInCirc_boundary : easeInCirc 0 = 0 ∧ easeInCirc 1 = 1 := by
  constructor <;> norm_num [easeInCirc]

theorem easeOutCirc_boundary : easeOutCirc 0 = 0 ∧ easeOutCirc 1 = 1 := by
  constructor <;> norm_num [easeOutCirc]

theorem easeInOutCirc_boundary : easeInOutCirc 0 = 0 ∧ easeInOutCirc 1 = 1 := by
  constructor <;> norm_num [easeInOutCirc]

theorem easeInBack_boundary : easeInBack 0 = 0 ∧ easeInBack 1 = 1 := by
  constructor <;> norm_num [easeInBack]

theorem easeOutBack_boundary : easeOutBack 0 = 0 ∧ easeOutBack 1 = 1 := by
  constructor <;> norm_num [easeOutBack]

theorem easeInOutBack_boundary : easeInOutBack 0 = 0 ∧ easeInOutBack 1 = 1 := by
  constructor <;> norm_num [easeInOutBack]

theorem easeInElastic_boundary : easeInElastic 0 = 0 ∧ easeInElastic 1 = 1 := by
  constructor <;> norm_num [easeInElastic]

theorem easeOutElastic_boundary : easeOutElastic 0 = 0 ∧ easeOutElastic 1 = 1 := by
  constructor <;> norm_num [easeOutElastic]

theorem easeInOutElastic_boundary :
    easeInOutElastic 0 = 0 ∧ easeInOutElastic 1 = 1 := by
  constructor <;> norm_num [easeInOutElastic]

theorem easeInBounce_boundary : easeInBounce 0 = 0 ∧ easeInBounce 1 = 1 := by
  constructor <;> norm_num [easeInBounce, easeOutBounce]

theorem easeOutBounce_boundary : easeOutBounce 0 = 0 ∧ easeOutBounce 1 = 1 := by
  constructor <;> norm_num [easeOutBounce]

theorem easeInOutBounce_boundary :
    easeInOutBounce 0 = 0 ∧ easeInOutBounce 1 = 1 := by
  constructor <;> norm_num [easeInOutBounce, easeOutBounce]

/-- C9: every one of the 31 exported easing functions satisfies
`f(0) = 0` and `f(1) = 1` in exact arithmetic, including the exponential
and elastic families, whose explicit `t = 0` / `t = 1` fixups make the
boundary values hold by construction. -/
theorem easing_boundary_law :
    (linear 0 = 0 ∧ linear 1 = 1)
    ∧ (easeInQuad 0 = 0 ∧ easeInQuad 1 = 1)
    ∧ (easeOutQuad 0 = 0 ∧ easeOutQuad 1 = 1)
    ∧ (easeInOutQuad 0 = 0 ∧ easeInOutQuad 1 = 1)
    ∧ (easeInCubic 0 = 0 ∧ easeInCubic 1 = 1)
    ∧ (easeOutCubic 0 = 0 ∧ easeOutCubic 1 = 1)
    ∧ (easeInOutCubic 0 = 0 ∧ easeInOutCubic 1 = 1)
    ∧ (easeInQuart 0 = 0 ∧ easeInQuart 1 = 1)
    ∧ (easeOutQuart 0 = 0 ∧ easeOutQuart 1 = 1)
    ∧ (easeInOutQuart 0 = 0 ∧ easeInOutQuart 1 = 1)
    ∧ (easeInQuint 0 = 0 ∧ easeInQuint 1 = 1)
    ∧ (easeOutQuint 0 = 0 ∧ easeOutQuint 1 = 1)
    ∧ (easeInOutQuint 0 = 0 ∧ easeInOutQuint 1 = 1)
    ∧ (easeInSine 0 = 0 ∧ easeInSine 1 = 1)
    ∧ (easeOutSine 0 = 0 ∧ easeOutSine 1 = 1)
    ∧ (easeInOutSine 0 = 0 ∧ easeInOutSine 1 = 1)
    ∧ (easeInExpo 0 = 0 ∧ easeInExpo 1 = 1)
    ∧ (easeOutExpo 0 = 0 ∧ easeOutExpo 1 = 1)
    ∧ (easeInOutExpo 0 = 0 ∧ easeInOutExpo 1 = 1)
    ∧ (easeInCirc 0 = 0 ∧ easeInCirc 1 = 1)
    ∧ (easeOutCirc 0 = 0 ∧ easeOutCirc 1 = 1)
    ∧ (easeInOutCirc 0 = 0 ∧ easeInOutCirc 1 = 1)
    ∧ (easeInBack 0 = 0 ∧ easeInBack 1 = 1)
    ∧ (easeOutBack 0 = 0 ∧ easeOutBack 1 = 1)
    ∧ (easeInOutBack 0 = 0 ∧ easeInOutBack 1 = 1)
    ∧ (easeInElastic 0 = 0 ∧ easeInElastic 1 = 1)
    ∧ (easeOutElastic 0 = 0 ∧ easeOutElastic 1 = 1)
    ∧ (easeInOutElastic 0 = 0 ∧ easeInOutElastic 1 = 1)
    ∧ (easeInBounce 0 = 0 ∧ easeInBounce 1 = 1)
    ∧ (easeOutBounce 0 = 0 ∧ easeOutBounce 1 = 1)
    ∧ (easeInOutBounce 0 = 0 ∧ easeInOutBounce 1 = 1) :=
  ⟨linear_boundary, easeInQuad_boundary, easeOutQuad_boundary,
    easeInOutQuad_boundary, easeInCubic_boundary, easeOutCubic_boundary,
    easeInOutCubic_boundary, easeInQuart_boundary, easeOutQuart_boundary,
    easeInOutQuart_boundary, easeInQuint_boundary, easeOutQuint_boundary,
    easeInOutQuint_boundary, easeInSine_boundary, easeOutSine_boundary,
    easeInOutSine_boundary, easeInExpo_boundary, easeOutExpo_boundary,
    easeInOutExpo_boundary, easeInCirc_boundary, easeOutCirc_boundary,
    easeInOutCirc_boundary, easeInBack_boundary, easeOutBack_boundary,
    easeInOutBack_boundary, easeInElastic_boundary, easeOutElastic_boundary,
    easeInOutElastic_boundary, easeInBounce_boundary, easeOutBounce_boundary,
    easeInOutBounce_boundary⟩

/-- Counterexample to C2 as stated: the shader computes
`fillAmount = 1.0 - step(u_progress, normalizedDist)`, which fills iff
`normalizedDist < progress` *strictly*.  At the boundary pixel with
`uv.x = 0.3`, direction left-right and `progress = 0.3`, the normalized
distance equals the progress, the claimed `≤` threshold says "filled",
but the shader leaves the pixel unfilled. -/
theorem radial_fill_threshold_counterexample :
    ¬ (fillAmount (3 / 10)
          (radialFillNormalizedDist 2 ((1 : ℝ) / 2, 1 / 2) (3 / 10, 1 / 2)) = 1
        ↔ radialFillNormalizedDist 2 ((1 : ℝ) / 2, 1 / 2) (3 / 10, 1 / 2) ≤ 3 / 10) := by
  norm_num [fillAmount, glslStep, radialFillNormalizedDist]

/-- C2 (amended): the fill decision is the *strict* binary threshold
`filled = normalizedDistance < progress` (a pixel whose normalized
distance equals the progress is not filled), with the normalized distance
per mode as claimed: `length(uv − anchor)/sqrt(2)` for center-out, one
minus that for edge-in, `uv.x` for left-right, `1 − uv.y` for top-bottom.
On the 10×10 fully-opaque left-right scenario with progress `0.3` the
filled set still coincides with the pixels whose normalized x-coordinate
is `≤ 0.3`, because no pixel center sits exactly on the boundary. -/
theorem radial_fill_strict_threshold (progress : ℝ) (anchorPoint uv : ℝ × ℝ) :
    (∀ nd : ℝ, fillAmount progress nd = if nd < progress then 1 else 0)
    ∧ radialFillNormalizedDist 0 anchorPoint uv
      = Real.sqrt ((uv.1 - anchorPoint.1) ^ (2 : ℕ) + (uv.2 - anchorPoint.2) ^ (2 : ℕ)) /
          Real.sqrt 2
    ∧ radialFillNormalizedDist 1 anchorPoint uv
      = 1 - Real.sqrt ((uv.1 - anchorPoint.1) ^ (2 : ℕ) + (uv.2 - anchorPoint.2) ^ (2 : ℕ)) /
          Real.sqrt 2
    ∧ radialFillNormalizedDist 2 anchorPoint uv = uv.1
    ∧ radialFillNormalizedDist 3 anchorPoint uv = 1 - uv.2
    ∧ ∀ i j : Fin 10,
        (fillAmount (3 / 10) (radialFillNormalizedDist 2 anchorPoint
            (((i : ℝ) + 1 / 2) / 10, ((j : ℝ) + 1 / 2) / 10)) = 1
          ↔ ((i : ℝ) + 1 / 2) / 10 ≤ 3 / 10) := by
  refine ⟨?_, ?_, ?_, ?_, ?_, ?_⟩
  · intro nd
    unfold fillAmount glslStep
    split_ifs <;> norm_num
  · norm_num [radialFillNormalizedDist]
  · norm_num [radialFillNormalizedDist]
  · norm_num [radialFillNormalizedDist]
  · norm_num [radialFillNormalizedDist]
  · intro i j
    unfold fillAmount glslStep radialFillNormalizedDist
    fin_cases i <;> norm_num

/-- C7: for every input the radial-fill fragment's output alpha equals the
source alpha, and the output color is the fill color (over the source's
alpha) exactly when the pixel is filled (strict threshold) and the source
alpha passes the mask `threshold ≤ alpha`; otherwise the source pixel is
returned unmodified. -/
theorem radial_fill_output_characterization (direction : ℕ)
    (anchorPoint : ℝ × ℝ) (progress threshold : ℝ) (fillColor : RGBA)
    (uv : ℝ × ℝ) (texColor : RGBA) :
    (radialFillFragment direction anchorPoint progress threshold fillColor uv texColor).a
      = texColor.a
    ∧ radialFillFragment direction anchorPoint progress threshold fillColor uv texColor
      = if radialFillNormalizedDist direction anchorPoint uv < progress
            ∧ threshold ≤ texColor.a
        then { r := fillColor.r, g := fillColor.g, b := fillColor.b, a := texColor.a }
        else texColor := by
  obtain ⟨tr, tg, tb, ta⟩ := texColor
  constructor
  · rfl
  · simp only [radialFillFragment, fillAmount, glslStep, glslMix]
    by_cases hd : radialFillNormalizedDist direction anchorPoint uv < progress <;>
      by_cases hm : threshold ≤ ta
    · simp [hd, hm, not_lt.mpr hm]
    · simp [hd, hm, not_le.mp hm]
    · simp [hd, hm, not_lt.mpr hm]
    · simp [hd, hm, not_le.mp hm]

/-- C10: `applyFluidFill`'s direction map has no entry for `'custom'`, so
`directionMap[direction] ?? 0` sends it to shader mode `0` — the same mode
as `'center-out'` — and the fragment output of a custom-direction fill is
identical to a center-out fill around the same anchor point, for every
input. -/
theorem custom_direction_equals_center_out :
    directionValue ("custom") = directionValue ("center-out")
    ∧ ∀ (anchorPoint : ℝ × ℝ) (progress threshold : ℝ) (fillColor : RGBA)
        (uv : ℝ × ℝ) (texColor : RGBA),
        radialFillFragment (directionValue ("custom")) anchorPoint progress
            threshold fillColor uv texColor
          = radialFillFragment (directionValue ("center-out")) anchorPoint progress
              threshold fillColor uv texColor := by
  have h : directionValue ("custom") = directionValue ("center-out") := by
    rfl
  exact ⟨h, fun anchorPoint progress threshold fillColor uv texColor => by rw [h]⟩

/-- Counterexample to C8 as stated: the WebGL renderer's `applyFluidFill`
evaluates the effect's `progress` parameter as
`effect.parameters['progress']?.valueAt(context.time) ?? 0` — on an effect
with no `progress` parameter it silently substitutes `0` instead of
erroring, even though `getParameterValue` would have produced the
fail-loudly error for the same lookup. -/
theorem parameter_silent_default_counterexample :
    applyFluidFillProgress [] 0 = 0
    ∧ getParameterValue [] ("FluidFill") ("progress") 0
      = Except.error ("Parameter progress not found on effect FluidFill") := by
  constructor
  · rfl
  · rfl

/-- C8 (amended): `BaseEffect.getParameterValue` and `BaseEffect.animate`
fail loudly (throw) whenever the requested parameter name is unbound;
however, the WebGL renderer's `applyFluidFill` path reads `progress`
optionally and silently substitutes `0` when it is missing, so not every
code path that evaluates an effect's named parameters errors on a missing
name. -/
theorem parameter_lookup_error_behavior (params : Params)
    (effectName name : String) (time : ℝ) (kfs : List (Keyframe ℝ))
    (hmissing : List.lookup name params = none) :
    getParameterValue params effectName name time
      = Except.error ("Parameter " ++ name ++ " not found on effect " ++ effectName)
    ∧ animate params effectName name kfs
      = Except.error ("Parameter " ++ name ++ " not found on effect " ++ effectName)
    ∧ (name = "progress" → applyFluidFillProgress params time = 0) := by
  refine ⟨?_, ?_, ?_⟩
  · unfold getParameterValue
    rw [hmissing]
  · unfold animate
    rw [hmissing]
  · intro hname
    subst hname
    unfold applyFluidFillProgress
    rw [hmissing]

/-- Witness for C8 (amended) on an effect with an empty parameter record
and the name `progress`. -/
theorem parameter_lookup_error_behavior_witness :
    getParameterValue [] ("FluidFill") ("progress") 0
      = Except.error ("Parameter " ++ "progress" ++ " not found on effect " ++ "FluidFill")
    ∧ animate [] ("FluidFill") ("progress") []
      = Except.error ("Parameter " ++ "progress" ++ " not found on effect " ++ "FluidFill")
    ∧ ("progress" = "progress" → applyFluidFillProgress [] 0 = 0) :=
  parameter_lookup_error_behavior [] ("FluidFill") ("progress") 0 [] rfl

/-- An in-bounds sample of the previous-pass buffer is one of its cells. -/
theorem sampleGrid_mem {w h : ℕ} (g : SDFGrid w h) (i j : ℤ) (c : SDFCell)
    (hc : sampleGrid g i j = some c) : ∃ q : Fin w × Fin h, c = g q := by
  unfold sampleGrid at hc
  split at hc
  · exact ⟨_, (Option.some.inj hc).symm⟩
  · cases hc

/-- One step of the 3×3 scan preserves the per-cell invariant: the
candidate is only replaced using a neighbor whose valid flag is true, and
the replacement records that neighbor's seed together with the distance
measured from the current pixel's own coordinate. -/
theorem jumpUpdate_cellOK {w h : ℕ} (alpha : Fin w × Fin h → ℚ)
    (threshold : ℚ) (g : SDFGrid w h)
    (hg : SDFInvariant alpha threshold g) (p : Fin w × Fin h)
    (stepSize : ℕ) (closest : SDFCell) (off : ℤ × ℤ)
    (hc : CellOK alpha threshold p closest) :
    CellOK alpha threshold p (jumpUpdate g p stepSize closest off) := by
  unfold jumpUpdate
  split
  · exact hc
  · rename_i neighbor hsample
    dsimp only []
    split_ifs with hval hdist
    · intro _
      obtain ⟨q, hq⟩ := sampleGrid_mem g _ _ neighbor hsample
      have hok := hg q (by rw [← hq]; exact hval)
      refine ⟨?_, rfl⟩
      rw [← hq] at hok
      exact hok.1
    · exact hc
    · exact hc

/-- The full 3×3 fold preserves the per-cell invariant. -/
theorem foldl_jumpUpdate_cellOK {w h : ℕ} (alpha : Fin w × Fin h → ℚ)
    (threshold : ℚ) (g : SDFGrid w h)
    (hg : SDFInvariant alpha threshold g) (p : Fin w × Fin h)
    (stepSize : ℕ) :
    ∀ (offs : List (ℤ × ℤ)) (closest : SDFCell),
      CellOK alpha threshold p closest →
      CellOK alpha threshold p (offs.foldl (jumpUpdate g p stepSize) closest) := by
  intro offs
  induction offs with
  | nil =>
    intro c hc
    exact hc
  | cons o rest ih =>
    intro c hc
    rw [List.foldl_cons]
    exact ih _ (jumpUpdate_cellOK alpha threshold g hg p stepSize c o hc)

/-- One step of the scan either keeps the current candidate or adopts a
valid in-bounds neighbor's seed (at the recomputed own-coordinate
distance); an invalid neighbor can never displace the candidate. -/
theorem jumpUpdate_shape {w h : ℕ} (g : SDFGrid w h) (p : Fin w × Fin h)
    (stepSize : ℕ) (closest : SDFCell) (off : ℤ × ℤ) :
    jumpUpdate g p stepSize closest off = closest
    ∨ ∃ n : SDFCell,
        sampleGrid g ((p.1 : ℤ) + off.1 * stepSize)
            ((p.2 : ℤ) + off.2 * stepSize) = some n
        ∧ n.valid = true
        ∧ jumpUpdate g p stepSize closest off
          = { seed := n.seed, distSq := sqDist (texelUV p) n.seed, valid := true } := by
  unfold jumpUpdate
  split
  · exact Or.inl rfl
  · rename_i neighbor hsample
    dsimp only []
    split_ifs with hval hdist
    · exact Or.inr ⟨neighbor, hsample, hval, rfl⟩
    · exact Or.inl rfl
    · exact Or.inl rfl

/-- The full 3×3 fold either leaves the cell unchanged or replaces it
using some valid neighbor from the scanned offsets. -/
theorem foldl_jumpUpdate_shape {w h : ℕ} (g : SDFGrid w h)
    (p : Fin w × Fin h) (stepSize : ℕ) :
    ∀ (offs : List (ℤ × ℤ)) (closest : SDFCell),
      offs.foldl (jumpUpdate g p stepSize) closest = closest
      ∨ ∃ off ∈ offs, ∃ n : SDFCell,
          sampleGrid g ((p.1 : ℤ) + off.1 * stepSize)
              ((p.2 : ℤ) + off.2 * stepSize) = some n
          ∧ n.valid = true
          ∧ offs.foldl (jumpUpdate g p stepSize) closest
            = { seed := n.seed, distSq := sqDist (texelUV p) n.seed, valid := true } := by
  intro offs
  induction offs with
  | nil =>
    intro c
    exact Or.inl rfl
  | cons o rest ih =>
    intro c
    rw [List.foldl_cons]
    rcases ih (jumpUpdate g p stepSize c o) with hsame | ⟨off, hoff, n, hs, hv, heq⟩
    · rcases jumpUpdate_shape g p stepSize c o with hkeep | ⟨n, hs, hv, heq⟩
      · rw [hsame, hkeep]
        exact Or.inl rfl
      · refine Or.inr ⟨o, by simp, n, hs, hv, ?_⟩
        rw [hsame, heq]
    · exact Or.inr ⟨off, by simp [hoff], n, hs, hv, heq⟩

/-- C5: after the seed pass every valid cell is its own seed (source
alpha strictly above the threshold) at distance 0, and each jump-flood
propagation pass at any step size preserves the invariant: a cell's best
candidate is only ever replaced using a neighbor whose valid flag is true
(an invalid cell never displaces anything, whatever its sentinel
distance), and every valid cell records a genuine seed together with the
exact Euclidean distance from the cell's own coordinate to that seed
(tracked as the squared distance `distSq`; the final conjunct restates it
as the real Euclidean distance). -/
theorem sdf_invariant_preserved (w h : ℕ) (alpha : Fin w × Fin h → ℚ)
    (threshold : ℚ) (g : SDFGrid w h) (stepSize : ℕ)
    (hg : SDFInvariant alpha threshold g) :
    SDFInvariant alpha threshold (sdfInit alpha threshold)
    ∧ SDFInvariant alpha threshold (sdfJump g stepSize)
    ∧ (∀ p : Fin w × Fin h,
        sdfJump g stepSize p = g p
        ∨ ∃ off ∈ jumpOffsets, ∃ n : SDFCell,
            sampleGrid g ((p.1 : ℤ) + off.1 * stepSize)
                ((p.2 : ℤ) + off.2 * stepSize) = some n
            ∧ n.valid = true
            ∧ sdfJump g stepSize p
              = { seed := n.seed, distSq := sqDist (texelUV p) n.seed, valid := true })
    ∧ (∀ p : Fin w × Fin h, (sdfJump g stepSize p).valid = true →
        Real.sqrt (((sdfJump g stepSize p).distSq : ℚ) : ℝ)
          = euclidDist (texelUV p) (sdfJump g stepSize p).seed) := by
  have hjump : SDFInvariant alpha threshold (sdfJump g stepSize) := by
    intro p
    unfold sdfJump
    exact foldl_jumpUpdate_cellOK alpha threshold g hg p stepSize jumpOffsets
      (g p) (hg p)
  refine ⟨?_, hjump, ?_, ?_⟩
  · intro p
    unfold sdfInit CellOK
    split_ifs with halpha
    · intro _
      exact ⟨⟨p, rfl, halpha⟩, by norm_num [sqDist]⟩
    · intro hfalse
      simp at hfalse
  · intro p
    exact foldl_jumpUpdate_shape g p stepSize jumpOffsets (g p)
  · intro p hvalid
    have h2 := (hjump p hvalid).2
    unfold euclidDist
    rw [h2]

/-- Witness for C5: the invariant holds after the seed pass on a concrete
2×2 single-seed source and is preserved by a jump pass at step size 1. -/
theorem sdf_invariant_preserved_witness :
    SDFInvariant demoAlpha (1 / 2) (sdfJump (sdfInit demoAlpha (1 / 2)) 1) := by
  have hvac : SDFInvariant demoAlpha (1 / 2) invalidGrid := by
    intro p hvalid
    simp [invalidGrid] at hvalid
  have hinit : SDFInvariant demoAlpha (1 / 2) (sdfInit demoAlpha (1 / 2)) :=
    (sdf_invariant_preserved 2 2 demoAlpha (1 / 2) invalidGrid 1 hvac).1
  exact (sdf_invariant_preserved 2 2 demoAlpha (1 / 2)
    (sdfInit demoAlpha (1 / 2)) 1 hinit).2.1

end ComposiFX
